import Mathlib

/-!
# Verification of the dnsclient-rust message model and configuration

Shallow embedding of the repository (src/dns.rs, src/config.rs) in Lean 4,
together with a wire codec modelled from the design document (the repository
source contains no codec), and proofs of the specification claims.

Machine integers (u8/u16/u32) are modelled as `Nat` with explicit `% 2^w`
where overflow can occur; Rust release-profile wrapping semantics are used
for `u16` addition.  I/O (the UDP socket handle, the filesystem) is modelled
by explicit parameters: the socket state carries only the transaction-id
counter, and file contents are passed as `Option String` (`none` = the read
failed).
-/

set_option linter.unusedVariables false

/-! ## Embedding of src/dns.rs -/

/-- `DnsRecordType` from src/dns.rs: the type of record being requested or
returned. -/
inductive DnsRecordType where
  | A | NS | CNAME | SOA | PTR | MX | TXT | AAAA | SRV | NAPTR | OPT
  | IXFR | AXFR | ANY
deriving DecidableEq, Repr

/-- The Rust enum discriminant of each `DnsRecordType` variant
(`A = 1, NS = 2, ...` in src/dns.rs). -/
def DnsRecordType.discriminant : DnsRecordType → Nat
  | .A => 1
  | .NS => 2
  | .CNAME => 5
  | .SOA => 6
  | .PTR => 12
  | .MX => 15
  | .TXT => 16
  | .AAAA => 28
  | .SRV => 33
  | .NAPTR => 35
  | .OPT => 41
  | .IXFR => 251
  | .AXFR => 252
  | .ANY => 255

/-- `DnsRecordType::value` from src/dns.rs: `return *self as u8;` — the
discriminant cast to `u8` (modelled by `% 256`). -/
def DnsRecordType.value (r : DnsRecordType) : Nat :=
  r.discriminant % 256

/-- `DnsQueryType` from src/dns.rs: how the server returns the responses.
`Iterative` has discriminant 0, `Recursive` the implicit successor 1. -/
inductive DnsQueryType where
  | Iterative | Recursive
deriving DecidableEq, Repr

/-- The Rust enum discriminant of each `DnsQueryType` variant. -/
def DnsQueryType.discriminant : DnsQueryType → Nat
  | .Iterative => 0
  | .Recursive => 1

/-- `DnsQueryType::value` from src/dns.rs: `return *self as u16;` — the
discriminant cast to `u16` (modelled by `% 65536`). -/
def DnsQueryType.value (q : DnsQueryType) : Nat :=
  q.discriminant % 65536

/-- `DnsQueryClass` from src/dns.rs: the class of the query. -/
inductive DnsQueryClass where
  | InternetClass | NoClass | AllClass
deriving DecidableEq, Repr

/-- The Rust enum discriminant of each `DnsQueryClass` variant
(`InternetClass = 1, NoClass = 254, AllClass = 255` in src/dns.rs). -/
def DnsQueryClass.discriminant : DnsQueryClass → Nat
  | .InternetClass => 1
  | .NoClass => 254
  | .AllClass => 255

/-- `QueryZone` from src/dns.rs: data for the Query/Zone section. -/
structure QueryZone where
  qz_name : String
  qz_type : DnsRecordType
  qz_class : DnsQueryClass
deriving DecidableEq, Repr

/-- `ResourceRecord` from src/dns.rs: in the source sketch it holds only the
owning name. -/
structure ResourceRecord where
  rr_name : String
deriving DecidableEq, Repr

/-- `DnsMessageSection` from src/dns.rs: the four ordered record sequences
(the `Box` indirection of the Rust code has no semantic content). -/
structure DnsMessageSection where
  queries : List QueryZone
  answers : List ResourceRecord
  authority : List ResourceRecord
  additional : List ResourceRecord
deriving DecidableEq, Repr

/-- `DnsMessageSection::new` from src/dns.rs: four empty vectors
(`Vec::with_capacity(1)` is still an empty vector). -/
def DnsMessageSection.new : DnsMessageSection :=
  { queries := [], answers := [], authority := [], additional := [] }

/-- `DnsMessage` from src/dns.rs: the DNS message format for both requests
and responses.  All six scalar fields are `u16`. -/
structure DnsMessage where
  transaction_id : Nat
  flags : Nat
  query_count : Nat
  answer_count : Nat
  authority_count : Nat
  additional_count : Nat
  records : DnsMessageSection
deriving DecidableEq, Repr

/-- `DnsMessage::new` from src/dns.rs: transaction id as given, all flags and
counts zero, fresh empty section. -/
def DnsMessage.new (trans_id : Nat) : DnsMessage :=
  { transaction_id := trans_id
    flags := 0
    query_count := 0
    answer_count := 0
    authority_count := 0
    additional_count := 0
    records := DnsMessageSection.new }

/-- `DnsMessage::set_query` from src/dns.rs.  The Rust body is
`self.flags |= 0x8000; self.flags |= 0x80 * query.value(); self.query_count = 1;`
— it ors two bits into `flags` and sets `query_count`, and does not touch
`records` (the `hostname` and `record` parameters are unused by the source).
Both or-operands are below `2^16`, so no `u16` wrap can occur. -/
def DnsMessage.set_query (m : DnsMessage) (hostname : String)
    (query : DnsQueryType) (record : DnsRecordType) : DnsMessage :=
  { m with
    flags := (m.flags ||| 0x8000) ||| 0x80 * query.value
    query_count := 1 }

/-- `DnsSocket` from src/dns.rs.  The `UdpSocket` handle is I/O and carries
no message-level state; the model keeps the `trans_id` counter. -/
structure DnsSocket where
  trans_id : Nat
deriving DecidableEq, Repr

/-- `DnsSocket::new` from src/dns.rs: binds the UDP socket (I/O, not
modelled) and starts the counter at 0. -/
def DnsSocket.new : DnsSocket :=
  { trans_id := 0 }

/-- `DnsSocket::query` from src/dns.rs: increments `trans_id` (a `u16`, so
wrapping modulo `2^16` in release builds), builds a fresh message with that
id and applies `set_query`.  The Rust function returns
`Result<DnsMessage, Error>` but every path is `Ok`, so the model returns the
message together with the updated socket state directly. -/
def DnsSocket.query (s : DnsSocket) (hostname : String)
    (query : DnsQueryType) (record : DnsRecordType) : DnsMessage × DnsSocket :=
  let trans_id := (s.trans_id + 1) % 65536
  let dns_message := (DnsMessage.new trans_id).set_query hostname query record
  (dns_message, { trans_id := trans_id })

/-- The socket state after `n` successive `DnsSocket::query` calls on a
fresh socket (the hostname/query/record arguments do not reach the state). -/
def queryIterState : Nat → DnsSocket
  | 0 => DnsSocket.new
  | n + 1 => (DnsSocket.query (queryIterState n) "example.com"
      DnsQueryType.Recursive DnsRecordType.A).2

/-! ## Embedding of src/config.rs -/

/-- `AppConfig` from src/config.rs. -/
structure AppConfig where
  hostname : String
  dns_server : List String
deriving DecidableEq, Repr

/-- `parse_resolv_conf` from src/config.rs.  The filesystem read
`std::fs::read_to_string` is modelled by the `contents` parameter
(`none` = the read returned `Err`, and the function returns the empty
vector).  Otherwise it splits the contents on the newline character and
pushes the tail of every line starting with `"nameserver "` (the Rust
`strip_prefix` call removes exactly those 11 characters). -/
def parse_resolv_conf (contents : Option String) : List String :=
  match contents with
  | none => []
  | some lines =>
    (lines.splitOn "\n").foldl
      (fun nameservers line =>
        if line.startsWith "nameserver " then
          nameservers ++ [line.drop 11]
        else
          nameservers)
      []

/-- `AppConfig::from` from src/config.rs, after the external collaborators
(clap argument parsing, the `DNS_FILE` environment variable) have produced
the positional `hostname`, the optional `--global-server` value and the
resolver-file contents: the server list is the singleton override when
given, otherwise the `parse_resolv_conf` result. -/
def AppConfig.from (hostname : String) (globalServer : Option String)
    (resolvContents : Option String) : AppConfig :=
  { hostname := hostname
    dns_server :=
      match globalServer with
      | some r => [r]
      | none => parse_resolv_conf resolvContents }

/-! ## Wire codec, modelled from the specification

The repository source contains no encode/decode logic (the sketch covers
only the Message Model), so the codec is modelled from the design
document: 12-byte big-endian header, question entries as name + 16-bit type
+ 16-bit class, resource records as name + type + class + 32-bit TTL +
16-bit rdlength + rdata, RFC-1035 label encoding with compression-pointer
decoding guarded by a fuel bound.  rdata is kept as the opaque byte
sequence of the wire format. -/

namespace Codec

/-- Modelled from the spec: `EncodeError` — a name/label too long, or the
total message exceeding the 512-byte classic UDP limit. -/
inductive EncodeError where
  | NameTooLong
  | SectionTooLarge
deriving DecidableEq, Repr

/-- Modelled from the spec: `DecodeError` — truncated input, a
compression-pointer loop (or unbounded chain), or a label byte that is
neither a length 0-63 nor a pointer. -/
inductive DecodeError where
  | Truncated
  | CompressionLoop
  | BadLabel
deriving DecidableEq, Repr

/-- Modelled from the spec: a domain name is a sequence of labels, each a
byte sequence of length 1..63. -/
abbrev DomainName := List (List Nat)

/-- Modelled from the spec: a question entry — domain name, 16-bit record
type, 16-bit query class. -/
structure Question where
  name : DomainName
  qtype : Nat
  qclass : Nat
deriving DecidableEq, Repr

/-- Modelled from the spec: a resource record — owning name, type, class,
32-bit TTL, and opaque rdata bytes (rdlength is derived as the rdata
length on encode and read from the wire on decode). -/
structure RR where
  name : DomainName
  rtype : Nat
  rclass : Nat
  ttl : Nat
  rdata : List Nat
deriving DecidableEq, Repr

/-- Modelled from the spec: `DnsMessageSection` — the four ordered
sequences of the message body. -/
structure DnsMessageSection where
  queries : List Question
  answers : List RR
  authority : List RR
  additional : List RR
deriving DecidableEq, Repr

/-- Modelled from the spec: `DnsMessage` — transaction id, 16-bit flags,
four 16-bit counts and the section data.  The counts must equal the section
lengths (they are derived on encode and checked against the parsed
structure on decode). -/
structure DnsMessage where
  transaction_id : Nat
  flags : Nat
  query_count : Nat
  answer_count : Nat
  authority_count : Nat
  additional_count : Nat
  records : DnsMessageSection
deriving DecidableEq, Repr

/-- Big-endian bytes of a 16-bit value. -/
def encodeU16 (v : Nat) : List Nat :=
  [v / 256, v % 256]

/-- Big-endian bytes of a 32-bit value. -/
def encodeU32 (v : Nat) : List Nat :=
  [v / 16777216, v / 65536 % 256, v / 256 % 256, v % 256]

/-- RFC-1035 label serialization: each label as a length byte followed by
its bytes, the name terminated by a zero byte (no compression emitted). -/
def encodeLabels : DomainName → List Nat
  | [] => [0]
  | l :: ls => l.length :: (l ++ encodeLabels ls)

/-- Wire bytes of one question entry: name, then 16-bit type and class. -/
def encodeQuestion (q : Question) : List Nat :=
  encodeLabels q.name ++ encodeU16 q.qtype ++ encodeU16 q.qclass

/-- Wire bytes of one resource record: name, type, class, TTL, derived
rdlength, rdata. -/
def encodeRR (r : RR) : List Nat :=
  encodeLabels r.name ++ encodeU16 r.rtype ++ encodeU16 r.rclass ++
    encodeU32 r.ttl ++ encodeU16 r.rdata.length ++ r.rdata

/-- The raw serialization of a message: 12-byte header (transaction id,
flags, and the four counts derived from the section lengths, all big-endian
16-bit) followed by the four sections. -/
def rawEncode (m : DnsMessage) : List Nat :=
  encodeU16 m.transaction_id ++ encodeU16 m.flags ++
    encodeU16 m.records.queries.length ++ encodeU16 m.records.answers.length ++
    encodeU16 m.records.authority.length ++ encodeU16 m.records.additional.length ++
    (m.records.queries.map encodeQuestion).flatten ++
    (m.records.answers.map encodeRR).flatten ++
    (m.records.authority.map encodeRR).flatten ++
    (m.records.additional.map encodeRR).flatten

/-- Does every label of the name fit the wire limits (at most 63 bytes per
label, at most 255 bytes for the whole encoded name)? -/
def nameFits (n : DomainName) : Bool :=
  n.all (fun l => l.length ≤ 63) && (encodeLabels n).length ≤ 255

/-- Do all names of the message fit the wire limits? -/
def namesFit (m : DnsMessage) : Bool :=
  m.records.queries.all (fun q => nameFits q.name) &&
    m.records.answers.all (fun r => nameFits r.name) &&
    m.records.authority.all (fun r => nameFits r.name) &&
    m.records.additional.all (fun r => nameFits r.name)

/-- Modelled from the spec: `Encode(DnsMessage) → byte sequence`.  Fails
with `NameTooLong` if any label exceeds 63 bytes or a full name exceeds 255
bytes, and with `SectionTooLarge` if the total message exceeds the classic
512-byte UDP limit (EDNS0 size negotiation is not modelled: no OPT
advertisement is ever emitted by this client model). -/
def encode (m : DnsMessage) : Except EncodeError (List Nat) :=
  if namesFit m then
    if (rawEncode m).length ≤ 512 then
      Except.ok (rawEncode m)
    else
      Except.error EncodeError.SectionTooLarge
  else
    Except.error EncodeError.NameTooLong

/-- Read the byte at offset `pos`, failing with `Truncated` past the end. -/
def byteAt (buf : List Nat) (pos : Nat) : Except DecodeError Nat :=
  match buf.get? pos with
  | some b => Except.ok b
  | none => Except.error DecodeError.Truncated

/-- Read `k` raw bytes starting at `pos`. -/
def readBytes (buf : List Nat) (pos k : Nat) : Except DecodeError (List Nat) :=
  if pos + k ≤ buf.length then
    Except.ok ((buf.drop pos).take k)
  else
    Except.error DecodeError.Truncated

/-- Read a big-endian 16-bit value at `pos`. -/
def readU16 (buf : List Nat) (pos : Nat) : Except DecodeError Nat :=
  match byteAt buf pos, byteAt buf (pos + 1) with
  | Except.ok b1, Except.ok b2 => Except.ok (b1 * 256 + b2)
  | Except.error e, _ => Except.error e
  | _, Except.error e => Except.error e

/-- Read a big-endian 32-bit value at `pos`. -/
def readU32 (buf : List Nat) (pos : Nat) : Except DecodeError Nat :=
  match readU16 buf pos, readU16 buf (pos + 2) with
  | Except.ok h, Except.ok l => Except.ok (h * 65536 + l)
  | Except.error e, _ => Except.error e
  | _, Except.error e => Except.error e

/-- Modelled from the spec: RFC-1035 domain-name decoding over the whole
message buffer.  A byte is either a terminating zero, a label length 1-63
followed by that many bytes, or (top two bits set) the first byte of a
2-byte compression pointer holding an offset from the start of the message;
anything else is rejected.  `fuel` bounds the total number of steps, so
pointer loops and unbounded chains exhaust it and fail with
`CompressionLoop`.  Returns the labels and the offset just past the name in
the original stream (a pointer ends the in-stream name after its 2 bytes). -/
def decodeName (buf : List Nat) : Nat → Nat → Except DecodeError (DomainName × Nat)
  | _, 0 => Except.error DecodeError.CompressionLoop
  | pos, fuel + 1 =>
    match buf.get? pos with
    | none => Except.error DecodeError.Truncated
    | some b =>
      if b = 0 then
        Except.ok ([], pos + 1)
      else if b ≤ 63 then
        match readBytes buf (pos + 1) b with
        | Except.error e => Except.error e
        | Except.ok label =>
          match decodeName buf (pos + 1 + b) fuel with
          | Except.error e => Except.error e
          | Except.ok (rest, np) => Except.ok (label :: rest, np)
      else if 192 ≤ b then
        match byteAt buf (pos + 1) with
        | Except.error e => Except.error e
        | Except.ok b2 =>
          match decodeName buf ((b - 192) * 256 + b2) fuel with
          | Except.error e => Except.error e
          | Except.ok (labels, _) => Except.ok (labels, pos + 2)
      else
        Except.error DecodeError.BadLabel

/-- Decode one question entry at `pos`: name, 16-bit type, 16-bit class. -/
def decodeQuestion (buf : List Nat) (pos : Nat) :
    Except DecodeError (Question × Nat) :=
  match decodeName buf pos buf.length with
  | Except.error e => Except.error e
  | Except.ok (name, p1) =>
    match readU16 buf p1, readU16 buf (p1 + 2) with
    | Except.ok t, Except.ok c =>
      Except.ok ({ name := name, qtype := t, qclass := c }, p1 + 4)
    | Except.error e, _ => Except.error e
    | _, Except.error e => Except.error e

/-- Decode one resource record at `pos`: name, type, class, TTL, rdlength,
then exactly rdlength bytes of rdata kept opaquely (unknown record types
are therefore preserved, not an error). -/
def decodeRR (buf : List Nat) (pos : Nat) : Except DecodeError (RR × Nat) :=
  match decodeName buf pos buf.length with
  | Except.error e => Except.error e
  | Except.ok (name, p1) =>
    match readU16 buf p1, readU16 buf (p1 + 2), readU32 buf (p1 + 4),
        readU16 buf (p1 + 8) with
    | Except.ok t, Except.ok c, Except.ok ttl, Except.ok rdlen =>
      match readBytes buf (p1 + 10) rdlen with
      | Except.error e => Except.error e
      | Except.ok rdata =>
        Except.ok ({ name := name, rtype := t, rclass := c, ttl := ttl,
                     rdata := rdata }, p1 + 10 + rdlen)
    | Except.error e, _, _, _ => Except.error e
    | _, Except.error e, _, _ => Except.error e
    | _, _, Except.error e, _ => Except.error e
    | _, _, _, Except.error e => Except.error e

/-- Decode `n` consecutive entries with the given item decoder, starting at
`pos`; returns the entries in order and the offset past the last one. -/
def decodeMany {α : Type} (item : List Nat → Nat → Except DecodeError (α × Nat))
    (buf : List Nat) : Nat → Nat → Except DecodeError (List α × Nat)
  | 0, pos => Except.ok ([], pos)
  | n + 1, pos =>
    match item buf pos with
    | Except.error e => Except.error e
    | Except.ok (a, p) =>
      match decodeMany item buf n p with
      | Except.error e => Except.error e
      | Except.ok (rest, np) => Except.ok (a :: rest, np)

/-- Modelled from the spec: `Decode(byte sequence) → DnsMessage`.  Requires
at least the 12-byte header (else `Truncated`), reads transaction id, flags
and the four counts big-endian, then parses each section per the declared
counts; the counts and section lengths therefore agree by construction on
success, and every malformed-input path returns a typed error. -/
def decode (buf : List Nat) : Except DecodeError DnsMessage :=
  if buf.length < 12 then
    Except.error DecodeError.Truncated
  else
    match readU16 buf 0, readU16 buf 2, readU16 buf 4, readU16 buf 6,
        readU16 buf 8, readU16 buf 10 with
    | Except.ok tid, Except.ok fl, Except.ok qc, Except.ok anc,
        Except.ok auc, Except.ok adc =>
      match decodeMany decodeQuestion buf qc 12 with
      | Except.error e => Except.error e
      | Except.ok (qs, p1) =>
        match decodeMany decodeRR buf anc p1 with
        | Except.error e => Except.error e
        | Except.ok (ans, p2) =>
          match decodeMany decodeRR buf auc p2 with
          | Except.error e => Except.error e
          | Except.ok (auth, p3) =>
            match decodeMany decodeRR buf adc p3 with
            | Except.error e => Except.error e
            | Except.ok (addl, _) =>
              Except.ok { transaction_id := tid, flags := fl,
                          query_count := qc, answer_count := anc,
                          authority_count := auc, additional_count := adc,
                          records := { queries := qs, answers := ans,
                                       authority := auth,
                                       additional := addl } }
    | Except.error e, _, _, _, _, _ => Except.error e
    | _, Except.error e, _, _, _, _ => Except.error e
    | _, _, Except.error e, _, _, _ => Except.error e
    | _, _, _, Except.error e, _, _ => Except.error e
    | _, _, _, _, Except.error e, _ => Except.error e
    | _, _, _, _, _, Except.error e => Except.error e

/-- A domain name valid under the Message Model: every label has 1 to 63
bytes. -/
def validName (n : DomainName) : Prop :=
  ∀ l ∈ n, 1 ≤ l.length ∧ l.length ≤ 63

/-- A question valid under the Message Model: valid name, 16-bit type and
class. -/
def validQuestion (q : Question) : Prop :=
  validName q.name ∧ q.qtype < 65536 ∧ q.qclass < 65536

/-- A resource record valid under the Message Model: valid name, 16-bit
type and class, 32-bit TTL, 16-bit rdata length. -/
def validRR (r : RR) : Prop :=
  validName r.name ∧ r.rtype < 65536 ∧ r.rclass < 65536 ∧
    r.ttl < 4294967296 ∧ r.rdata.length < 65536

/-- A message constructible under the Message Model: 16-bit transaction id
and flags, every count equal to the length of its section (and hence
16-bit), and every entry valid. -/
def validMessage (m : DnsMessage) : Prop :=
  m.transaction_id < 65536 ∧ m.flags < 65536 ∧
    m.query_count = m.records.queries.length ∧
    m.answer_count = m.records.answers.length ∧
    m.authority_count = m.records.authority.length ∧
    m.additional_count = m.records.additional.length ∧
    m.records.queries.length < 65536 ∧
    m.records.answers.length < 65536 ∧
    m.records.authority.length < 65536 ∧
    m.records.additional.length < 65536 ∧
    (∀ q ∈ m.records.queries, validQuestion q) ∧
    (∀ r ∈ m.records.answers, validRR r) ∧
    (∀ r ∈ m.records.authority, validRR r) ∧
    (∀ r ∈ m.records.additional, validRR r)

instance (n : DomainName) : Decidable (validName n) := by
  unfold validName; infer_instance

instance (q : Question) : Decidable (validQuestion q) := by
  unfold validQuestion; infer_instance

instance (r : RR) : Decidable (validRR r) := by
  unfold validRR; infer_instance

instance (m : DnsMessage) : Decidable (validMessage m) := by
  unfold validMessage; infer_instance

end Codec

/-- A concrete Message-Model message (one question and one A answer for
example.com, as in the end-to-end scenario of the design document), used to
instantiate the round-trip theorem. -/
def exampleMessage : Codec.DnsMessage :=
  { transaction_id := 513
    flags := 256
    query_count := 1
    answer_count := 1
    authority_count := 0
    additional_count := 0
    records :=
      { queries := [{ name := [[101, 120, 97, 109, 112, 108, 101], [99, 111, 109]],
                      qtype := 1, qclass := 1 }]
        answers := [{ name := [[101, 120, 97, 109, 112, 108, 101], [99, 111, 109]],
                      rtype := 1, rclass := 1, ttl := 3600,
                      rdata := [93, 184, 216, 34] }]
        authority := []
        additional := [] } }

/-! ## Byte-level decoding lemmas -/

set_option linter.deprecated false

namespace Codec

theorem get?_append_cons (pre : List Nat) (b : Nat) (suf : List Nat) :
    (pre ++ b :: suf).get? pre.length = some b := by
  induction pre with
  | nil => rfl
  | cons p ps ih => exact ih

theorem byteAt_at (pre : List Nat) (b : Nat) (suf : List Nat) :
    byteAt (pre ++ b :: suf) pre.length = Except.ok b := by
  unfold byteAt
  rw [get?_append_cons]

theorem encodeU16_length (v : Nat) : (encodeU16 v).length = 2 := rfl

theorem encodeU32_split (v : Nat) :
    encodeU32 v = encodeU16 (v / 65536) ++ encodeU16 (v % 65536) := by
  have h1 : v / 16777216 = v / 65536 / 256 := by rw [Nat.div_div_eq_div_mul]
  have h3 : v / 256 % 256 = v % 65536 / 256 := by
    rw [show (65536 : Nat) = 256 * 256 from rfl, Nat.mod_mul_right_div_self]
  have h4 : v % 256 = v % 65536 % 256 := (Nat.mod_mod_of_dvd v (by norm_num)).symm
  rw [encodeU32, h1, h3, h4]
  rfl

theorem readU16_at (buf pre suf : List Nat) (v pos : Nat) (hv : v < 65536)
    (hbuf : buf = pre ++ encodeU16 v ++ suf) (hpos : pos = pre.length) :
    readU16 buf pos = Except.ok v := by
  subst hbuf hpos
  have h1 : byteAt (pre ++ encodeU16 v ++ suf) pre.length = Except.ok (v / 256) := by
    have heq : pre ++ encodeU16 v ++ suf = pre ++ (v / 256) :: ((v % 256) :: suf) := by
      simp [encodeU16]
    rw [heq, byteAt_at]
  have h2 : byteAt (pre ++ encodeU16 v ++ suf) (pre.length + 1) =
      Except.ok (v % 256) := by
    have heq : pre ++ encodeU16 v ++ suf = (pre ++ [v / 256]) ++ (v % 256) :: suf := by
      simp [encodeU16]
    have hlen : pre.length + 1 = (pre ++ [v / 256]).length := by simp
    rw [heq, hlen, byteAt_at]
  rw [readU16, h1, h2]
  simp
  omega

theorem readU32_at (buf pre suf : List Nat) (v pos : Nat) (hv : v < 4294967296)
    (hbuf : buf = pre ++ encodeU32 v ++ suf) (hpos : pos = pre.length) :
    readU32 buf pos = Except.ok v := by
  subst hbuf hpos
  have h1 : readU16 (pre ++ encodeU32 v ++ suf) pre.length =
      Except.ok (v / 65536) := by
    refine readU16_at _ pre (encodeU16 (v % 65536) ++ suf) _ _ (by omega) ?_ rfl
    rw [encodeU32_split]
    simp
  have h2 : readU16 (pre ++ encodeU32 v ++ suf) (pre.length + 2) =
      Except.ok (v % 65536) := by
    refine readU16_at _ (pre ++ encodeU16 (v / 65536)) suf _ _ (by omega) ?_ ?_
    · rw [encodeU32_split]; simp
    · simp [encodeU16_length]
  rw [readU32, h1, h2]
  simp
  omega

theorem readBytes_at (buf pre l suf : List Nat) (pos k : Nat)
    (hbuf : buf = pre ++ l ++ suf) (hpos : pos = pre.length)
    (hk : k = l.length) : readBytes buf pos k = Except.ok l := by
  subst hbuf hpos hk
  have hle : pre.length + l.length ≤ (pre ++ l ++ suf).length := by
    simp [List.length_append]
  rw [readBytes, if_pos hle]
  have hdrop : (pre ++ l ++ suf).drop pre.length = l ++ suf := by
    rw [List.append_assoc]
    exact List.drop_left pre (l ++ suf)
  rw [hdrop, List.take_left l suf]

end Codec

namespace Codec

theorem length_le_encodeLabels (n : DomainName) :
    n.length + 1 ≤ (encodeLabels n).length := by
  induction n with
  | nil => simp [encodeLabels]
  | cons l ls ih => simp [encodeLabels]; omega

theorem decodeName_encode (n : DomainName) :
    validName n →
    ∀ (buf pre suf : List Nat) (pos fuel : Nat),
      buf = pre ++ encodeLabels n ++ suf → pos = pre.length →
      n.length + 1 ≤ fuel →
      decodeName buf pos fuel = Except.ok (n, pos + (encodeLabels n).length) := by
  induction n with
  | nil =>
    intro hn buf pre suf pos fuel hbuf hpos hfuel
    subst hbuf hpos
    obtain ⟨f, rfl⟩ : ∃ f, fuel = f + 1 := ⟨fuel - 1, by omega⟩
    have hb : (pre ++ encodeLabels [] ++ suf).get? pre.length = some 0 := by
      rw [show pre ++ encodeLabels [] ++ suf = pre ++ 0 :: suf by simp [encodeLabels]]
      exact get?_append_cons pre 0 suf
    simp only [decodeName, hb]
    simp [encodeLabels]
  | cons l ls ih =>
    intro hn buf pre suf pos fuel hbuf hpos hfuel
    subst hbuf hpos
    obtain ⟨f, rfl⟩ : ∃ f, fuel = f + 1 := ⟨fuel - 1, by omega⟩
    have hl : 1 ≤ l.length ∧ l.length ≤ 63 := hn l (by simp)
    have hb : (pre ++ encodeLabels (l :: ls) ++ suf).get? pre.length
        = some l.length := by
      rw [show pre ++ encodeLabels (l :: ls) ++ suf
          = pre ++ l.length :: (l ++ (encodeLabels ls ++ suf)) by
        simp [encodeLabels]]
      exact get?_append_cons pre l.length (l ++ (encodeLabels ls ++ suf))
    have hrb : readBytes (pre ++ encodeLabels (l :: ls) ++ suf)
        (pre.length + 1) l.length = Except.ok l :=
      readBytes_at _ (pre ++ [l.length]) l (encodeLabels ls ++ suf) _ _
        (by simp [encodeLabels]) (by simp) rfl
    have hrec : decodeName (pre ++ encodeLabels (l :: ls) ++ suf)
        (pre.length + 1 + l.length) f
        = Except.ok (ls, pre.length + 1 + l.length + (encodeLabels ls).length) :=
      ih (fun x hx => hn x (by simp [hx])) _ (pre ++ l.length :: l) suf _ f
        (by simp [encodeLabels]) (by simp; omega) (by simp at hfuel; omega)
    simp only [decodeName, hb]
    rw [if_neg (by omega), if_pos (by omega), hrb]
    simp only []
    rw [hrec]
    simp only []
    simp [encodeLabels]
    omega

theorem decodeQuestion_encode (q : Question) (hq : validQuestion q)
    (buf pre suf : List Nat) (pos : Nat)
    (hbuf : buf = pre ++ encodeQuestion q ++ suf) (hpos : pos = pre.length) :
    decodeQuestion buf pos = Except.ok (q, pos + (encodeQuestion q).length) := by
  subst hbuf hpos
  obtain ⟨hname, htype, hclass⟩ := hq
  have hfuel : q.name.length + 1 ≤ (pre ++ encodeQuestion q ++ suf).length := by
    have h1 := length_le_encodeLabels q.name
    simp [encodeQuestion, List.length_append]
    omega
  have hnd : decodeName (pre ++ encodeQuestion q ++ suf) pre.length
      (pre ++ encodeQuestion q ++ suf).length
      = Except.ok (q.name, pre.length + (encodeLabels q.name).length) :=
    decodeName_encode q.name hname _ pre
      (encodeU16 q.qtype ++ encodeU16 q.qclass ++ suf) _ _
      (by simp [encodeQuestion]) rfl hfuel
  have ht : readU16 (pre ++ encodeQuestion q ++ suf)
      (pre.length + (encodeLabels q.name).length) = Except.ok q.qtype :=
    readU16_at _ (pre ++ encodeLabels q.name) (encodeU16 q.qclass ++ suf) _ _
      htype (by simp [encodeQuestion]) (by simp)
  have hc : readU16 (pre ++ encodeQuestion q ++ suf)
      (pre.length + (encodeLabels q.name).length + 2) = Except.ok q.qclass :=
    readU16_at _ (pre ++ encodeLabels q.name ++ encodeU16 q.qtype) suf _ _
      hclass (by simp [encodeQuestion]) (by simp [encodeU16]; omega)
  rw [decodeQuestion, hnd]
  simp only []
  rw [ht, hc]
  simp only []
  simp [encodeQuestion, encodeU16, List.length_append]
  omega

theorem decodeRR_encode (r : RR) (hr : validRR r)
    (buf pre suf : List Nat) (pos : Nat)
    (hbuf : buf = pre ++ encodeRR r ++ suf) (hpos : pos = pre.length) :
    decodeRR buf pos = Except.ok (r, pos + (encodeRR r).length) := by
  subst hbuf hpos
  obtain ⟨hname, htype, hclass, httl, hrd⟩ := hr
  have hfuel : r.name.length + 1 ≤ (pre ++ encodeRR r ++ suf).length := by
    have h1 := length_le_encodeLabels r.name
    simp [encodeRR, List.length_append]
    omega
  have hnd : decodeName (pre ++ encodeRR r ++ suf) pre.length
      (pre ++ encodeRR r ++ suf).length
      = Except.ok (r.name, pre.length + (encodeLabels r.name).length) :=
    decodeName_encode r.name hname _ pre
      (encodeU16 r.rtype ++ encodeU16 r.rclass ++ encodeU32 r.ttl ++
        encodeU16 r.rdata.length ++ r.rdata ++ suf) _ _
      (by simp [encodeRR]) rfl hfuel
  have ht : readU16 (pre ++ encodeRR r ++ suf)
      (pre.length + (encodeLabels r.name).length) = Except.ok r.rtype :=
    readU16_at _ (pre ++ encodeLabels r.name)
      (encodeU16 r.rclass ++ encodeU32 r.ttl ++ encodeU16 r.rdata.length ++
        r.rdata ++ suf) _ _ htype (by simp [encodeRR]) (by simp)
  have hc : readU16 (pre ++ encodeRR r ++ suf)
      (pre.length + (encodeLabels r.name).length + 2) = Except.ok r.rclass :=
    readU16_at _ (pre ++ encodeLabels r.name ++ encodeU16 r.rtype)
      (encodeU32 r.ttl ++ encodeU16 r.rdata.length ++ r.rdata ++ suf) _ _
      hclass (by simp [encodeRR]) (by simp [encodeU16]; omega)
  have httl2 : readU32 (pre ++ encodeRR r ++ suf)
      (pre.length + (encodeLabels r.name).length + 4) = Except.ok r.ttl :=
    readU32_at _ (pre ++ encodeLabels r.name ++ encodeU16 r.rtype ++
        encodeU16 r.rclass)
      (encodeU16 r.rdata.length ++ r.rdata ++ suf) _ _
      httl (by simp [encodeRR]) (by simp [encodeU16]; omega)
  have hrl : readU16 (pre ++ encodeRR r ++ suf)
      (pre.length + (encodeLabels r.name).length + 8) = Except.ok r.rdata.length :=
    readU16_at _ (pre ++ encodeLabels r.name ++ encodeU16 r.rtype ++
        encodeU16 r.rclass ++ encodeU32 r.ttl) (r.rdata ++ suf) _ _
      hrd (by simp [encodeRR]) (by simp [encodeU16, encodeU32]; omega)
  have hrdata : readBytes (pre ++ encodeRR r ++ suf)
      (pre.length + (encodeLabels r.name).length + 10) r.rdata.length
      = Except.ok r.rdata :=
    readBytes_at _ (pre ++ encodeLabels r.name ++ encodeU16 r.rtype ++
        encodeU16 r.rclass ++ encodeU32 r.ttl ++ encodeU16 r.rdata.length)
      r.rdata suf _ _ (by simp [encodeRR]) (by simp [encodeU16, encodeU32]; omega) rfl
  rw [decodeRR, hnd]
  simp only []
  rw [ht, hc, httl2, hrl]
  simp only []
  rw [hrdata]
  simp only []
  simp [encodeRR, encodeU16, encodeU32, List.length_append]
  omega

end Codec

namespace Codec

theorem decodeMany_encode {α : Type}
    (item : List Nat → Nat → Except DecodeError (α × Nat))
    (encItem : α → List Nat) :
    ∀ (xs : List α),
      (∀ x ∈ xs, ∀ (buf pre suf : List Nat) (pos : Nat),
        buf = pre ++ encItem x ++ suf → pos = pre.length →
        item buf pos = Except.ok (x, pos + (encItem x).length)) →
      ∀ (buf pre suf : List Nat) (pos : Nat),
        buf = pre ++ (xs.map encItem).flatten ++ suf → pos = pre.length →
        decodeMany item buf xs.length pos
          = Except.ok (xs, pos + ((xs.map encItem).flatten).length) := by
  intro xs
  induction xs with
  | nil =>
    intro hitem buf pre suf pos hbuf hpos
    simp [decodeMany]
  | cons x xs ih =>
    intro hitem buf pre suf pos hbuf hpos
    subst hbuf hpos
    have hx : item (pre ++ (List.map encItem (x :: xs)).flatten ++ suf) pre.length
        = Except.ok (x, pre.length + (encItem x).length) :=
      hitem x (by simp) _ pre ((xs.map encItem).flatten ++ suf) _ (by simp) rfl
    have hrec : decodeMany item (pre ++ (List.map encItem (x :: xs)).flatten ++ suf)
        xs.length (pre.length + (encItem x).length)
        = Except.ok (xs, pre.length + (encItem x).length +
            ((xs.map encItem).flatten).length) :=
      ih (fun y hy => hitem y (by simp [hy])) _ (pre ++ encItem x) suf _
        (by simp) (by simp)
    rw [show (x :: xs).length = xs.length + 1 from rfl]
    rw [decodeMany, hx]
    simp only []
    rw [hrec]
    simp only []
    simp [List.length_append]
    omega

end Codec

namespace Codec

theorem decode_encode_parts (tid fl : Nat) (qs : List Question)
    (ans auth addl : List RR)
    (htid : tid < 65536) (hfl : fl < 65536)
    (hqlen : qs.length < 65536) (halen : ans.length < 65536)
    (haulen : auth.length < 65536) (hadlen : addl.length < 65536)
    (hqv : ∀ q ∈ qs, validQuestion q) (hav : ∀ r ∈ ans, validRR r)
    (hauv : ∀ r ∈ auth, validRR r) (hadv : ∀ r ∈ addl, validRR r) :
    decode (encodeU16 tid ++ encodeU16 fl ++ encodeU16 qs.length ++
        encodeU16 ans.length ++ encodeU16 auth.length ++ encodeU16 addl.length ++
        (qs.map encodeQuestion).flatten ++ (ans.map encodeRR).flatten ++
        (auth.map encodeRR).flatten ++ (addl.map encodeRR).flatten)
      = Except.ok ⟨tid, fl, qs.length, ans.length, auth.length, addl.length,
          ⟨qs, ans, auth, addl⟩⟩ := by
  set Qf := (qs.map encodeQuestion).flatten with hQf
  set Af := (ans.map encodeRR).flatten with hAf
  set Uf := (auth.map encodeRR).flatten with hUf
  set Df := (addl.map encodeRR).flatten with hDf
  set B := encodeU16 tid ++ encodeU16 fl ++ encodeU16 qs.length ++
      encodeU16 ans.length ++ encodeU16 auth.length ++ encodeU16 addl.length ++
      Qf ++ Af ++ Uf ++ Df with hB
  have hb12 : ¬ B.length < 12 := by
    rw [hB]
    simp [List.length_append, encodeU16]
  have h0 : readU16 B 0 = Except.ok tid :=
    readU16_at B [] (encodeU16 fl ++ encodeU16 qs.length ++
        encodeU16 ans.length ++ encodeU16 auth.length ++ encodeU16 addl.length ++
        Qf ++ Af ++ Uf ++ Df) tid 0 htid
      (by rw [hB]; simp [List.append_assoc]) rfl
  have h2 : readU16 B 2 = Except.ok fl :=
    readU16_at B (encodeU16 tid) (encodeU16 qs.length ++
        encodeU16 ans.length ++ encodeU16 auth.length ++ encodeU16 addl.length ++
        Qf ++ Af ++ Uf ++ Df) fl 2 hfl
      (by rw [hB]; simp [List.append_assoc]) (by simp [encodeU16])
  have h4 : readU16 B 4 = Except.ok qs.length :=
    readU16_at B (encodeU16 tid ++ encodeU16 fl) (encodeU16 ans.length ++
        encodeU16 auth.length ++ encodeU16 addl.length ++
        Qf ++ Af ++ Uf ++ Df) qs.length 4 hqlen
      (by rw [hB]; simp [List.append_assoc]) (by simp [encodeU16])
  have h6 : readU16 B 6 = Except.ok ans.length :=
    readU16_at B (encodeU16 tid ++ encodeU16 fl ++ encodeU16 qs.length)
      (encodeU16 auth.length ++ encodeU16 addl.length ++ Qf ++ Af ++ Uf ++ Df)
      ans.length 6 halen
      (by rw [hB]; simp [List.append_assoc]) (by simp [encodeU16])
  have h8 : readU16 B 8 = Except.ok auth.length :=
    readU16_at B (encodeU16 tid ++ encodeU16 fl ++ encodeU16 qs.length ++
        encodeU16 ans.length) (encodeU16 addl.length ++ Qf ++ Af ++ Uf ++ Df)
      auth.length 8 haulen
      (by rw [hB]; simp [List.append_assoc]) (by simp [encodeU16])
  have h10 : readU16 B 10 = Except.ok addl.length :=
    readU16_at B (encodeU16 tid ++ encodeU16 fl ++ encodeU16 qs.length ++
        encodeU16 ans.length ++ encodeU16 auth.length) (Qf ++ Af ++ Uf ++ Df)
      addl.length 10 hadlen
      (by rw [hB]; simp [List.append_assoc]) (by simp [encodeU16])
  have hQ : decodeMany decodeQuestion B qs.length 12
      = Except.ok (qs, 12 + Qf.length) :=
    decodeMany_encode decodeQuestion encodeQuestion qs
      (fun q hq buf pre suf pos hbuf hpos =>
        decodeQuestion_encode q (hqv q hq) buf pre suf pos hbuf hpos)
      B (encodeU16 tid ++ encodeU16 fl ++ encodeU16 qs.length ++
        encodeU16 ans.length ++ encodeU16 auth.length ++ encodeU16 addl.length)
      (Af ++ Uf ++ Df) 12
      (by simp only [hB, hQf, List.append_assoc]) (by simp [encodeU16])
  have hA : decodeMany decodeRR B ans.length (12 + Qf.length)
      = Except.ok (ans, 12 + Qf.length + Af.length) :=
    decodeMany_encode decodeRR encodeRR ans
      (fun r hr buf pre suf pos hbuf hpos =>
        decodeRR_encode r (hav r hr) buf pre suf pos hbuf hpos)
      B (encodeU16 tid ++ encodeU16 fl ++ encodeU16 qs.length ++
        encodeU16 ans.length ++ encodeU16 auth.length ++ encodeU16 addl.length ++
        Qf) (Uf ++ Df) (12 + Qf.length)
      (by simp only [hB, hAf, List.append_assoc])
      (by simp [encodeU16, List.length_append]; omega)
  have hU : decodeMany decodeRR B auth.length (12 + Qf.length + Af.length)
      = Except.ok (auth, 12 + Qf.length + Af.length + Uf.length) :=
    decodeMany_encode decodeRR encodeRR auth
      (fun r hr buf pre suf pos hbuf hpos =>
        decodeRR_encode r (hauv r hr) buf pre suf pos hbuf hpos)
      B (encodeU16 tid ++ encodeU16 fl ++ encodeU16 qs.length ++
        encodeU16 ans.length ++ encodeU16 auth.length ++ encodeU16 addl.length ++
        Qf ++ Af) Df (12 + Qf.length + Af.length)
      (by simp only [hB, hUf, List.append_assoc])
      (by simp [encodeU16, List.length_append]; omega)
  have hD : decodeMany decodeRR B addl.length (12 + Qf.length + Af.length + Uf.length)
      = Except.ok (addl, 12 + Qf.length + Af.length + Uf.length + Df.length) :=
    decodeMany_encode decodeRR encodeRR addl
      (fun r hr buf pre suf pos hbuf hpos =>
        decodeRR_encode r (hadv r hr) buf pre suf pos hbuf hpos)
      B (encodeU16 tid ++ encodeU16 fl ++ encodeU16 qs.length ++
        encodeU16 ans.length ++ encodeU16 auth.length ++ encodeU16 addl.length ++
        Qf ++ Af ++ Uf) [] (12 + Qf.length + Af.length + Uf.length)
      (by simp only [hB, hDf, List.append_assoc, List.append_nil])
      (by simp [encodeU16, List.length_append]; omega)
  rw [decode, if_neg hb12, h0, h2, h4, h6, h8, h10]
  simp only []
  rw [hQ]
  simp only []
  rw [hA]
  simp only []
  rw [hU]
  simp only []
  rw [hD]

/-- decode ∘ rawEncode is the identity on valid Message-Model messages. -/
theorem decode_rawEncode (m : DnsMessage) (hm : validMessage m) :
    decode (rawEncode m) = Except.ok m := by
  obtain ⟨htid, hfl, hqc, hanc, hauc, hadc, hql, hal, haul, hadl,
    hqv, hav, hauv, hadv⟩ := hm
  have h := decode_encode_parts m.transaction_id m.flags m.records.queries
    m.records.answers m.records.authority m.records.additional
    htid hfl hql hal haul hadl hqv hav hauv hadv
  rw [rawEncode, h]
  rw [← hqc, ← hanc, ← hauc, ← hadc]

end Codec

/-! ## Helper lemmas for the configuration and socket claims -/

theorem foldl_push_eq_filter_map {α β : Type} (p : α → Bool) (f : α → β) :
    ∀ (l : List α) (acc : List β),
      l.foldl (fun a x => if p x then a ++ [f x] else a) acc
        = acc ++ (l.filter p).map f := by
  intro l
  induction l with
  | nil => intro acc; simp
  | cons x xs ih =>
    intro acc
    by_cases h : p x
    · simp [List.filter_cons, h, ih]
    · simp [List.filter_cons, h, ih]

theorem queryIterState_trans_id (n : Nat) :
    (queryIterState n).trans_id = n % 65536 := by
  induction n with
  | zero => rfl
  | succ k ih =>
    show ((DnsSocket.query (queryIterState k) "example.com"
      DnsQueryType.Recursive DnsRecordType.A).2).trans_id = (k + 1) % 65536
    simp only [DnsSocket.query, ih]
    omega

/-! ## Claims -/

/-- C1: the claim asserts that every message reachable through
`DnsMessage::new` / `DnsSocket::query` / `set_query` has each count field
equal to the length of the corresponding section.  The code violates it:
`set_query` sets `query_count` to 1 but never pushes the question into the
queries section, so the message built for any query has `query_count = 1`
while its queries section is empty. -/
theorem C1_count_section_mismatch :
    ((DnsMessage.new 1).set_query "example.com" DnsQueryType.Recursive
      DnsRecordType.A).query_count = 1 ∧
    ((DnsMessage.new 1).set_query "example.com" DnsQueryType.Recursive
      DnsRecordType.A).records.queries.length = 0 :=
  ⟨rfl, rfl⟩

/-- C2: the claim asserts that the RD bit (mask 0x0100, the 8th bit from
the most significant end of the 16-bit flags word) is set for Recursive
queries and that no other flag bit depends on the query type.  The code
instead ors in `0x80 * query.value()`: for a Recursive query the resulting
flags word is 0x8080, whose RD bit (bit index 8) is clear while bit index 7
(the RA position) is set — contradicting the in-source comment that calls
0x80 the 8th bit. -/
theorem C2_rd_bit_wrong :
    ((DnsMessage.new 1).set_query "example.com" DnsQueryType.Recursive
      DnsRecordType.A).flags = 0x8080 ∧
    Nat.testBit ((DnsMessage.new 1).set_query "example.com"
      DnsQueryType.Recursive DnsRecordType.A).flags 8 = false ∧
    Nat.testBit ((DnsMessage.new 1).set_query "example.com"
      DnsQueryType.Recursive DnsRecordType.A).flags 7 = true := by
  refine ⟨by decide, by decide, by decide⟩

/-- C3 (counterexample): the claim asserts the transaction id of every
returned message is non-zero for any number of successive calls.  The
`u16` counter wraps: the 65536th call on a fresh socket (here: one more
call after 65535 previous ones) returns a message with transaction id 0. -/
theorem C3_counterexample :
    (DnsSocket.query (queryIterState 65535) "example.com"
      DnsQueryType.Recursive DnsRecordType.A).1.transaction_id = 0 := by
  have h2 : ∀ s : DnsSocket,
      (DnsSocket.query s "example.com" DnsQueryType.Recursive
        DnsRecordType.A).1.transaction_id = (s.trans_id + 1) % 65536 :=
    fun s => rfl
  rw [h2 (queryIterState 65535), queryIterState_trans_id 65535]

/-- C3 (amended): each `DnsSocket::query` call returns transaction id
`(previous counter + 1) mod 2^16`, which always differs from the previous
call's id; it is moreover non-zero except when the counter is at 65535,
where the id wraps to zero. -/
theorem C3_transaction_id (s : DnsSocket) (hs : s.trans_id < 65536)
    (hostname : String) (q : DnsQueryType) (r : DnsRecordType) :
    (DnsSocket.query s hostname q r).1.transaction_id = (s.trans_id + 1) % 65536 ∧
    (DnsSocket.query s hostname q r).1.transaction_id ≠ s.trans_id ∧
    (s.trans_id ≠ 65535 → (DnsSocket.query s hostname q r).1.transaction_id ≠ 0) := by
  refine ⟨rfl, ?_, ?_⟩
  · show (s.trans_id + 1) % 65536 ≠ s.trans_id
    omega
  · intro hne
    show (s.trans_id + 1) % 65536 ≠ 0
    omega

/-- C3 (witness): the amended statement instantiated on a fresh socket. -/
theorem C3_transaction_id_witness :
    DnsSocket.new.trans_id < 65536 ∧
    ((DnsSocket.query DnsSocket.new "example.com" DnsQueryType.Recursive
        DnsRecordType.A).1.transaction_id = (DnsSocket.new.trans_id + 1) % 65536 ∧
      (DnsSocket.query DnsSocket.new "example.com" DnsQueryType.Recursive
        DnsRecordType.A).1.transaction_id ≠ DnsSocket.new.trans_id ∧
      (DnsSocket.new.trans_id ≠ 65535 →
        (DnsSocket.query DnsSocket.new "example.com" DnsQueryType.Recursive
          DnsRecordType.A).1.transaction_id ≠ 0)) :=
  ⟨by decide, C3_transaction_id DnsSocket.new (by decide) "example.com"
    DnsQueryType.Recursive DnsRecordType.A⟩

/-- C4: for every message valid under the Message Model that the
spec-modelled encoder accepts, decoding the encoded bytes reproduces the
message exactly (all semantic fields, all record contents). -/
theorem C4_decode_encode (m : Codec.DnsMessage) (bs : List Nat)
    (hm : Codec.validMessage m) (henc : Codec.encode m = Except.ok bs) :
    Codec.decode bs = Except.ok m := by
  have hbs : bs = Codec.rawEncode m := by
    unfold Codec.encode at henc
    split at henc
    · split at henc
      · injection henc with h
        exact h.symm
      · cases henc
    · cases henc
  subst hbs
  exact Codec.decode_rawEncode m hm

/-- C4 (witness): the round trip on a concrete message with one question
and one A answer record. -/
theorem C4_decode_encode_witness :
    Codec.validMessage exampleMessage ∧
    Codec.encode exampleMessage = Except.ok (Codec.rawEncode exampleMessage) ∧
    Codec.decode (Codec.rawEncode exampleMessage) = Except.ok exampleMessage :=
  ⟨by decide, by rfl,
    C4_decode_encode exampleMessage (Codec.rawEncode exampleMessage)
      (by decide) (by rfl)⟩

/-- C5: `parse_resolv_conf` returns the empty list when the file is
unreadable, and otherwise exactly the lines starting with
`"nameserver "` (in file order) with that 11-character prefix stripped. -/
theorem C5_parse_resolv_conf :
    parse_resolv_conf none = [] ∧
    ∀ contents : String,
      parse_resolv_conf (some contents)
        = ((contents.splitOn "\n").filter
            (fun line => line.startsWith "nameserver ")).map
            (fun line => line.drop 11) := by
  refine ⟨rfl, ?_⟩
  intro contents
  show (contents.splitOn "\n").foldl _ [] = _
  rw [foldl_push_eq_filter_map (fun line => line.startsWith "nameserver ")
    (fun line => line.drop 11) (contents.splitOn "\n") []]
  simp

/-- C6: the server list of `AppConfig::from` is the singleton
`--global-server` override when that option is given, and otherwise the
ordered `parse_resolv_conf` result; the hostname field is the positional
hostname argument. -/
theorem C6_app_config (hostname : String) (server : String)
    (resolvContents : Option String) :
    (AppConfig.from hostname (some server) resolvContents).dns_server = [server] ∧
    (AppConfig.from hostname none resolvContents).dns_server
      = parse_resolv_conf resolvContents ∧
    ∀ globalServer : Option String,
      (AppConfig.from hostname globalServer resolvContents).hostname = hostname :=
  ⟨rfl, rfl, fun _ => rfl⟩

/-- C6 (witness): instantiated on concrete arguments. -/
theorem C6_app_config_witness :
    (AppConfig.from "google.com" (some "8.8.8.8") none).dns_server = ["8.8.8.8"] ∧
    (AppConfig.from "google.com" none none).dns_server = parse_resolv_conf none ∧
    ∀ globalServer : Option String,
      (AppConfig.from "google.com" globalServer none).hostname = "google.com" :=
  C6_app_config "google.com" "8.8.8.8" none

/-- C7: the wire-value mapping of the record-type and query-class
enumerations is the fixed constant table of the spec, and every record
type value fits in 16 bits. -/
theorem C7_wire_values :
    (DnsRecordType.value .A = 1 ∧ DnsRecordType.value .NS = 2 ∧
      DnsRecordType.value .CNAME = 5 ∧ DnsRecordType.value .SOA = 6 ∧
      DnsRecordType.value .PTR = 12 ∧ DnsRecordType.value .MX = 15 ∧
      DnsRecordType.value .TXT = 16 ∧ DnsRecordType.value .AAAA = 28 ∧
      DnsRecordType.value .SRV = 33 ∧ DnsRecordType.value .NAPTR = 35 ∧
      DnsRecordType.value .OPT = 41 ∧ DnsRecordType.value .IXFR = 251 ∧
      DnsRecordType.value .AXFR = 252 ∧ DnsRecordType.value .ANY = 255) ∧
    (∀ r : DnsRecordType, DnsRecordType.value r < 65536) ∧
    (DnsQueryClass.discriminant .InternetClass = 1 ∧
      DnsQueryClass.discriminant .NoClass = 254 ∧
      DnsQueryClass.discriminant .AllClass = 255) := by
  refine ⟨by decide, ?_, by decide⟩
  intro r
  cases r <;> decide

/-- C8: every message returned by `DnsSocket::query` has the
most-significant bit of its flags word (the QR bit, mask 0x8000) set —
`set_query` marks every outgoing query with QR = 1. -/
theorem C8_qr_bit (s : DnsSocket) (hostname : String) (q : DnsQueryType)
    (r : DnsRecordType) :
    Nat.testBit (DnsSocket.query s hostname q r).1.flags 15 = true := by
  have hf : (DnsSocket.query s hostname q r).1.flags
      = (0 ||| 0x8000) ||| 0x80 * q.value := rfl
  rw [hf]
  cases q <;> decide

/-- C9: the message (and socket state) returned by `DnsSocket::query` does
not depend on the hostname or record-type arguments — only the socket
state and the query type reach the result. -/
theorem C9_hostname_record_independent (s : DnsSocket)
    (hostname1 hostname2 : String) (q : DnsQueryType)
    (r1 r2 : DnsRecordType) :
    DnsSocket.query s hostname1 q r1 = DnsSocket.query s hostname2 q r2 :=
  rfl

/-- C10: `DnsMessage::new t` has transaction id `t`, zero flags, all four
counts zero, and four empty sections. -/
theorem C10_new (t : Nat) (ht : t < 65536) :
    (DnsMessage.new t).transaction_id = t ∧
    (DnsMessage.new t).flags = 0 ∧
    (DnsMessage.new t).query_count = 0 ∧
    (DnsMessage.new t).answer_count = 0 ∧
    (DnsMessage.new t).authority_count = 0 ∧
    (DnsMessage.new t).additional_count = 0 ∧
    (DnsMessage.new t).records.queries = [] ∧
    (DnsMessage.new t).records.answers = [] ∧
    (DnsMessage.new t).records.authority = [] ∧
    (DnsMessage.new t).records.additional = [] :=
  ⟨rfl, rfl, rfl, rfl, rfl, rfl, rfl, rfl, rfl, rfl⟩

/-- C10 (witness): instantiated at transaction id 3. -/
theorem C10_new_witness :
    3 < 65536 ∧
    ((DnsMessage.new 3).transaction_id = 3 ∧
      (DnsMessage.new 3).flags = 0 ∧
      (DnsMessage.new 3).query_count = 0 ∧
      (DnsMessage.new 3).answer_count = 0 ∧
      (DnsMessage.new 3).authority_count = 0 ∧
      (DnsMessage.new 3).additional_count = 0 ∧
      (DnsMessage.new 3).records.queries = [] ∧
      (DnsMessage.new 3).records.answers = [] ∧
      (DnsMessage.new 3).records.authority = [] ∧
      (DnsMessage.new 3).records.additional = []) :=
  ⟨by decide, C10_new 3 (by decide)⟩
